import Mathlib

/-!
Verification of the IPTV stream-tester (`iptvTester.py`) against its
natural-language specification.

The Python program is shallowly embedded as follows.

* Time is measured in tenths of a time-unit ("decis"), so that the 0.2-unit
  polling sleep is an increment of 2 and timing parameters given in whole
  time-units are multiples of 10.  The polling loops of `test_channel` and
  `check_stream_status` are modelled as tick-indexed recursions in which one
  iteration takes exactly one 0.2-unit sleep; the subprocess and its stderr
  stream are modelled as an environment `Env` giving, for each instant, the
  accumulated list of diagnostic lines and whether the process has exited.

* Python substring containment (`k in line`), `str.startswith` and
  `str.strip` are implemented character-for-character as `pyIn`,
  `pyStartsWith` and `pyStrip`; the regular expression `,(.+)` used by
  `parse_m3u_lines` is implemented as `extinfName` (leftmost comma that is
  followed by at least one character; the greedy `(.+)` takes the rest of
  the line).

* Fallible statements are modelled with a fault oracle `ExcOracle`: the
  three points the claims need are the spawn of the subprocess
  (`subprocess.Popen`, e.g. the ffplay binary being missing), the status
  print that precedes the `try` block, and the "Connecting... waiting"
  print that the `try` block executes between the main polling phase and
  the extended phase (a `print` can raise, e.g. `UnicodeEncodeError` when
  the emoji in the message cannot be encoded on the attached console).
  A propagated exception is `Except.error ()`, a normal return is
  `Except.ok`.
-/

/-- Python `str.strip` whitespace predicate, restricted to the six ASCII
whitespace characters `' '`, `\t`, `\n`, `\r`, `\v`, `\f`. -/
def isSpace (c : Char) : Bool :=
  c == ' ' || c == '\t' || c == '\n' || c == '\r' || c == Char.ofNat 11 || c == Char.ofNat 12

/-- Strip leading and trailing whitespace from a character list
(Python `str.strip`). -/
def stripChars (l : List Char) : List Char :=
  ((l.dropWhile isSpace).reverse.dropWhile isSpace).reverse

/-- Python `str.strip` on strings. -/
def pyStrip (s : String) : String :=
  String.mk (stripChars s.data)

/-- `takesPre needle hay` holds when `needle` is a literal prefix of `hay`. -/
def takesPre : List Char → List Char → Bool
  | [], _ => true
  | _ :: _, [] => false
  | a :: as, b :: bs => a == b && takesPre as bs

/-- `hasSub needle hay` holds when `needle` occurs as a contiguous substring
of `hay` (Python `needle in hay`). -/
def hasSub (needle : List Char) : List Char → Bool
  | [] => takesPre needle []
  | b :: bs => takesPre needle (b :: bs) || hasSub needle bs

/-- Python `k in line`. -/
def pyIn (k line : String) : Bool :=
  hasSub k.data line.data

/-- Python `line.startswith(pre)`. -/
def pyStartsWith (line pre : String) : Bool :=
  takesPre pre.data line.data

/-- `any(k in line for k in kws)` from the detection loops. -/
def anyKw (kws : List String) (line : String) : Bool :=
  kws.any (fun k => pyIn k line)

/-- One pass of the per-tick rescan `for line in output_lines: ...` for one
keyword family: true when some accumulated line contains some keyword. -/
def scanAny (kws : List String) (lines : List String) : Bool :=
  lines.any (fun l => anyKw kws l)

/-- `re.search(r",(.+)", line)` of `parse_m3u_lines`: the leftmost comma
that is followed by at least one character matches, and the greedy `(.+)`
captures everything after that comma; `none` when no comma has a character
after it. -/
def extinfName : List Char → Option (List Char)
  | [] => none
  | a :: rest => if a == ',' then (if rest.isEmpty then none else some rest) else extinfName rest

/-- The loop body of `parse_m3u_lines` (source lines 106-118): strip the
line; an `#EXTINF:` line with a captured group updates the current name;
a line starting with `http` emits `(current_name, line)`. -/
def parseLoop : List String → String → List (String × String)
  | [], _ => []
  | l :: ls, cur =>
    let line := pyStrip l
    if pyStartsWith line "#EXTINF:" then
      match extinfName line.data with
      | some g => parseLoop ls (pyStrip (String.mk g))
      | none => parseLoop ls cur
    else if pyStartsWith line "http" then
      (cur, line) :: parseLoop ls cur
    else
      parseLoop ls cur

/-- `parse_m3u_lines` (source lines 106-118), with `current_name`
initialised to `"Unknown"`. -/
def parse_m3u_lines (lines : List String) : List (String × String) :=
  parseLoop lines "Unknown"

/-- The environment of one probe session: for each instant `t` (in tenths
of a time-unit since the session started) the list of diagnostic lines the
stderr reader thread has appended so far, and whether `process.poll()`
reports the process as exited at `t`. -/
structure Env where
  lines : Nat → List String
  exited : Nat → Bool

/-- Success keywords of `test_channel` (source line 43). -/
def success_keywords : List String :=
  ["Stream #", "Video:", "Duration:"]

/-- Connecting keywords of `test_channel` and of `check_stream_status`
(source lines 44 and 150, which are the same literal). -/
def connecting_keywords : List String :=
  ["Opening", "buffer", "Cache", "Connected", "AVIO"]

/-- Success keywords of `check_stream_status` (source line 149); unlike
`test_channel` it also counts "Opening" and "AVFormat" as success. -/
def css_success_keywords : List String :=
  ["Stream #", "Video:", "Opening", "AVFormat", "Duration:"]

/-- The main polling phase (source lines 49-63): while `t < tmo`, break if
the process has exited, rescan all accumulated lines updating the two
monotone flags, break if success has been detected and the grace period has
elapsed, else sleep 0.2 units.  `fuel` bounds the number of iterations (the
callers pass `tmo + 1`, which is always sufficient since `t` advances by 2
per iteration).  Returns the elapsed time at loop exit and the two flags. -/
def mainPhase (env : Env) (sk ck : List String) (tmo g : Nat) :
    Nat → Nat → Bool → Bool → Nat × Bool × Bool
  | 0, t, s, c => (t, s, c)
  | fuel + 1, t, s, c =>
    if tmo ≤ t then (t, s, c)
    else if env.exited t = true then (t, s, c)
    else if (s || scanAny sk (env.lines t)) = true ∧ g ≤ t then
      (t, s || scanAny sk (env.lines t), c || scanAny ck (env.lines t))
    else
      mainPhase env sk ck tmo g fuel (t + 2)
        (s || scanAny sk (env.lines t)) (c || scanAny ck (env.lines t))

/-- The extended phase (source lines 66-78): up to `ext` extra time-units
(counted from its own clock origin `base`, the global time at which the
main phase ended), break on process exit, rescan for success keywords only,
break on success, else sleep 0.2 units.  Returns the local elapsed time at
loop exit and the success flag. -/
def extPhase (env : Env) (sk : List String) (ext : Nat) :
    Nat → Nat → Nat → Bool → Nat × Bool
  | 0, _, e, s => (e, s)
  | fuel + 1, base, e, s =>
    if ext ≤ e then (e, s)
    else if env.exited (base + e) = true then (e, s)
    else if (s || scanAny sk (env.lines (base + e))) = true then
      (e, s || scanAny sk (env.lines (base + e)))
    else
      extPhase env sk ext fuel base (e + 2) (s || scanAny sk (env.lines (base + e)))

/-- The three-way classification of a probe session. -/
inductive Outcome
  | Success
  | Ambiguous
  | Failure
deriving DecidableEq, Repr

/-- The verdict chain (source lines 92-100): `success_detected` gives
Success, else `connection_detected` gives Ambiguous, else Failure. -/
def classify (s c : Bool) : Outcome :=
  if s then Outcome.Success else if c then Outcome.Ambiguous else Outcome.Failure

/-- Everything observable about one completed call of `test_channel`:
the returned triple is `(name, url, ret)`; `verdict` is the three-way
classification the function prints (Failure for the caught-exception
path, which prints an error marker and returns `False`); `sFlag` and
`cFlag` are the detection flags at return time; `alive` tells whether the
ffplay subprocess is still running at the moment of the return; `tEnd` is
the session-global elapsed time at return. -/
structure RunResult where
  name : String
  url : String
  ret : Bool
  verdict : Outcome
  sFlag : Bool
  cFlag : Bool
  alive : Bool
  tEnd : Nat
deriving DecidableEq, Repr

/-- The tail of the probing functions (source lines 81-100): by this point
the process is terminated if still alive (`terminate`, then a 2-unit wait,
then `kill`; the taskkill branch on Windows likewise force-kills), so the
process is not alive at return, and the verdict chain runs on the flags. -/
def finishRun (n u : String) (t : Nat) (s c : Bool) : RunResult :=
  { name := n, url := u, ret := s, verdict := classify s c,
    sFlag := s, cFlag := c, alive := false, tEnd := t }

/-- From the end of the main phase to the return (source lines 66-100):
run the extended phase only when a connection was seen and no success yet,
then terminate and classify.  `t1`, `s1`, `c1` are the main phase results. -/
def afterMain (env : Env) (sk : List String) (n u : String) (ext t1 : Nat)
    (s1 c1 : Bool) : RunResult :=
  if c1 = true ∧ s1 = false then
    let r := extPhase env sk ext (ext + 1) t1 0 s1
    finishRun n u (t1 + r.1) r.2 c1
  else
    finishRun n u t1 s1 c1

/-- Exception oracle for one call of `test_channel`: which of the three
modelled fallible statements raises.  `atInitialPrint` is the status print
on source line 24, which precedes the `try` block; `atSpawn` is
`subprocess.Popen` on line 27 (e.g. ffplay missing); `atConnectingPrint`
is the print on line 67, executed inside the `try` block after the main
phase when a connection was seen without success (a print can raise, e.g.
`UnicodeEncodeError` for the emoji on a non-UTF-8 console). -/
structure ExcOracle where
  atInitialPrint : Bool
  atSpawn : Bool
  atConnectingPrint : Bool
deriving DecidableEq, Repr

/-- The oracle of a run in which no exception occurs. -/
def noExc : ExcOracle :=
  { atInitialPrint := false, atSpawn := false, atConnectingPrint := false }

/-- What the `except` handler (source lines 102-104) returns when the spawn
itself raised: `(name, url, False)`, no subprocess ever existed. -/
def spawnFailResult (n u : String) : RunResult :=
  { name := n, url := u, ret := false, verdict := Outcome.Failure,
    sFlag := false, cFlag := false, alive := false, tEnd := 0 }

/-- A complete exception-free run of `test_channel` (source lines 26-100):
main phase from time 0 with fuel `tmo + 1`, then `afterMain`. -/
def test_channel_run (env : Env) (n u : String) (tmo g ext : Nat) : RunResult :=
  let m := mainPhase env success_keywords connecting_keywords tmo g (tmo + 1) 0 false false
  afterMain env success_keywords n u ext m.1 m.2.1 m.2.2

/-- `test_channel` (source lines 20-104) under a fault oracle.  An
exception at the initial print (line 24) is raised before the `try` block
and propagates (`Except.error`).  An exception at spawn is caught by the
handler on line 102 and returns `(name, url, False)`.  An exception at the
"Connecting..." print (line 67) is also caught by that handler, but it
fires after the main phase and before the termination block, so the
process is returned-over while still alive unless it had already exited on
its own. -/
def test_channel (env : Env) (n u : String) (tmo g ext : Nat)
    (exc : ExcOracle) : Except Unit RunResult :=
  if exc.atInitialPrint = true then Except.error ()
  else if exc.atSpawn = true then Except.ok (spawnFailResult n u)
  else
    let m := mainPhase env success_keywords connecting_keywords tmo g (tmo + 1) 0 false false
    if m.2.2 = true ∧ m.2.1 = false ∧ exc.atConnectingPrint = true then
      Except.ok { name := n, url := u, ret := false, verdict := Outcome.Failure,
                  sFlag := m.2.1, cFlag := m.2.2,
                  alive := !(env.exited m.1), tEnd := m.1 }
    else
      Except.ok (afterMain env success_keywords n u ext m.1 m.2.1 m.2.2)

/-- `check_stream_status` (source lines 120-211): structurally the same
probing loop as `test_channel` but with the larger success-keyword set,
and it returns only the boolean `success_detected`. -/
def check_stream_status (env : Env) (n u : String) (tmo g ext : Nat) : Bool :=
  let m := mainPhase env css_success_keywords connecting_keywords tmo g (tmo + 1) 0 false false
  (afterMain env css_success_keywords n u ext m.1 m.2.1 m.2.2).ret

/-- Whether a call of `test_channel` left its ffplay subprocess running at
the moment control returned to the caller (for a propagated exception the
only modelled pre-`try` fault point precedes the spawn, so no process
exists). -/
def leakedProcess : Except Unit RunResult → Bool
  | Except.ok r => r.alive
  | Except.error _ => false

/-- Whether a call of `test_channel` returned normally (did not propagate
an exception into the caller). -/
def isOkE : Except Unit RunResult → Bool
  | Except.ok _ => true
  | Except.error _ => false

/-- The triple `(name, url, result)` that `test_channel` actually returns
to the scheduler (source lines 94, 97, 100, 104). -/
def retTriple (r : RunResult) : String × String × Bool :=
  (r.name, r.url, r.ret)

/-- A session that produces no diagnostic output and whose process never
exits on its own. -/
def envFail : Env :=
  { lines := fun _ => [], exited := fun _ => false }

/-- A session whose stream shows a connecting keyword from the start, never
a success keyword, and whose process never exits on its own. -/
def envConn : Env :=
  { lines := fun _ => ["Connected to host"], exited := fun _ => false }

/-- A session whose stream shows a success keyword from instant 3 (t = 0.3
time-units) and whose process never exits on its own. -/
def envGrace : Env :=
  { lines := fun t => if 3 ≤ t then ["Duration: 00"] else [], exited := fun _ => false }

/-- A session whose process emits a success line at instant 1 and exits on
its own at instant 2, before the second polling tick. -/
def envLateSucc : Env :=
  { lines := fun t => if 1 ≤ t then ["Duration: 00"] else [], exited := fun t => decide (2 ≤ t) }

/-- A session whose stream shows a connecting keyword only from instant 39,
after the last main-phase scan of a 40-decis timeout, and whose process
never exits on its own. -/
def envLateConn : Env :=
  { lines := fun t => if 39 ≤ t then ["Connected to host"] else [], exited := fun _ => false }

/-- A session with no output whose process exits on its own at instant 2. -/
def envSelfExit : Env :=
  { lines := fun _ => [], exited := fun t => decide (2 ≤ t) }

/-- A session whose only diagnostic line contains "Opening" (a connecting
keyword for both probing functions, and a success keyword only for
`check_stream_status`) and whose process never exits on its own. -/
def envOpening : Env :=
  { lines := fun _ => ["Opening stream input"], exited := fun _ => false }

/-- A playlist URL line as `parse_m3u_lines` consumes it: starts with
`http` and carries no surrounding whitespace. -/
def headNotSpace : List Char → Bool
  | [] => true
  | a :: _ => !isSpace a

/-- The last character, if any, is not whitespace. -/
def lastNotSpace (l : List Char) : Bool :=
  headNotSpace l.reverse

/-- Neither end of the character list is whitespace, so `str.strip` leaves
it unchanged. -/
def strippedShape (l : List Char) : Bool :=
  headNotSpace l && lastNotSpace l

/-- A URL line in the form the round-trip claims quantify over. -/
def validUrl (u : String) : Prop :=
  pyStartsWith u "http" = true ∧ strippedShape u.data = true

/-- A display name in the form the round-trip claims quantify over:
nonempty and with no surrounding whitespace. -/
def validName (n : String) : Prop :=
  n.data ≠ [] ∧ strippedShape n.data = true

instance : DecidablePred validUrl := fun u => by
  unfold validUrl; infer_instance

instance : DecidablePred validName := fun n => by
  unfold validName; infer_instance

/-- Render a list of `(name, url)` pairs as the `#EXTINF`/URL line pairs of
an extended-M3U playlist. -/
def renderPairs (ps : List (String × String)) : List String :=
  ps.flatMap (fun p => ["#EXTINF:-1," ++ p.1, p.2])

/-- The fields of `afterMain` follow the verdict chain: the verdict is
`classify` of the two flags, the returned boolean is the success flag, the
connection flag passes through unchanged, and the process is never alive
at return on this (exception-free) path. -/
theorem afterMain_fields (env : Env) (sk : List String) (n u : String) (ext t1 : Nat)
    (s1 c1 : Bool) :
    (afterMain env sk n u ext t1 s1 c1).verdict
      = classify (afterMain env sk n u ext t1 s1 c1).sFlag (afterMain env sk n u ext t1 s1 c1).cFlag ∧
    (afterMain env sk n u ext t1 s1 c1).ret = (afterMain env sk n u ext t1 s1 c1).sFlag ∧
    (afterMain env sk n u ext t1 s1 c1).cFlag = c1 ∧
    (afterMain env sk n u ext t1 s1 c1).alive = false := by
  unfold afterMain finishRun
  split <;> exact ⟨rfl, rfl, rfl, rfl⟩

/-- When the success flag is already set at the end of the main phase the
extended phase is skipped. -/
theorem afterMain_of_sTrue (env : Env) (sk : List String) (n u : String) (ext t1 : Nat)
    (c1 : Bool) :
    afterMain env sk n u ext t1 true c1 = finishRun n u t1 true c1 := by
  unfold afterMain
  simp

/-- The verdict chain maps a set success flag to Success and only then. -/
theorem classify_success_iff : ∀ s c : Bool, (s = true ↔ classify s c = Outcome.Success) := by
  decide

/-- With the all-clear oracle, `test_channel` returns normally with the
result of the exception-free run. -/
theorem test_channel_noExc (env : Env) (n u : String) (tmo g ext : Nat) :
    test_channel env n u tmo g ext noExc = Except.ok (test_channel_run env n u tmo g ext) := by
  simp [test_channel, test_channel_run, noExc]

/-- C1, counterexample.  Two sessions, one classified Ambiguous (connecting
keyword seen, no success) and one classified Failure (no keyword at all),
return the very same triple `("n", "u", false)` to the consumer: the value
`test_channel` returns does not let the consumer tell Ambiguous apart from
Failure. -/
theorem c1_counterexample :
    (test_channel_run envConn "n" "u" 4 2 2).verdict = Outcome.Ambiguous ∧
    (test_channel_run envFail "n" "u" 4 2 2).verdict = Outcome.Failure ∧
    retTriple (test_channel_run envConn "n" "u" 4 2 2)
      = retTriple (test_channel_run envFail "n" "u" 4 2 2) := by
  exact ⟨rfl, rfl, rfl⟩

/-- C1, amended.  For every exception-free probe session, `test_channel`
computes the three-way verdict by the stated chain (success gives Success,
else connection gives Ambiguous, else Failure), but the value it returns
carries only the success flag: the returned boolean is true exactly when
the verdict is Success, so the consumer can tell Success from the rest but
not Ambiguous from Failure. -/
theorem c1_amended :
    ∀ (env : Env) (n u : String) (tmo g ext : Nat), ∃ r : RunResult,
      test_channel env n u tmo g ext noExc = Except.ok r ∧
      r.verdict = classify r.sFlag r.cFlag ∧
      (r.ret = true ↔ r.verdict = Outcome.Success) := by
  intro env n u tmo g ext
  refine ⟨test_channel_run env n u tmo g ext, test_channel_noExc env n u tmo g ext, ?_, ?_⟩
  · exact (afterMain_fields env success_keywords n u ext _ _ _).1
  · have h1 := (afterMain_fields env success_keywords n u ext
      (mainPhase env success_keywords connecting_keywords tmo g (tmo + 1) 0 false false).1
      (mainPhase env success_keywords connecting_keywords tmo g (tmo + 1) 0 false false).2.1
      (mainPhase env success_keywords connecting_keywords tmo g (tmo + 1) 0 false false).2.2)
    show (test_channel_run env n u tmo g ext).ret = true
      ↔ (test_channel_run env n u tmo g ext).verdict = Outcome.Success
    rw [show (test_channel_run env n u tmo g ext).ret
        = (test_channel_run env n u tmo g ext).sFlag from h1.2.1,
      show (test_channel_run env n u tmo g ext).verdict
        = classify (test_channel_run env n u tmo g ext).sFlag
            (test_channel_run env n u tmo g ext).cFlag from h1.1]
    exact classify_success_iff _ _

/-- C2, counterexample.  A session whose stream shows a connecting keyword
and in which the "Connecting..." print (inside the `try` block, after the
main phase and before the termination block) raises: the `except` handler
returns the outcome `("n", "u", false)` while the ffplay subprocess is
still running (`alive = true`), so an outcome is reported with the
session's subprocess alive and the run leaks the process. -/
theorem c2_counterexample :
    test_channel envConn "n" "u" 4 2 2
        { atInitialPrint := false, atSpawn := false, atConnectingPrint := true }
      = Except.ok { name := "n", url := "u", ret := false, verdict := Outcome.Failure,
                    sFlag := false, cFlag := true, alive := true, tEnd := 4 } := by
  exact rfl

/-- C2, amended.  On every execution path of `test_channel` in which no
exception fires between the spawn and the termination block (all normal
paths: early success exit, timeout, extended-phase exit, process
self-exit; and the spawn-failure path, where no process ever exists), the
subprocess is no longer alive at the moment the outcome is returned and no
process is leaked.  The exception carved out by the counterexample is the
"Connecting..." print inside the `try` block. -/
theorem c2_amended (env : Env) (n u : String) (tmo g ext : Nat) (exc : ExcOracle)
    (h : exc.atConnectingPrint = false) :
    leakedProcess (test_channel env n u tmo g ext exc) = false := by
  obtain ⟨i, sp, cp⟩ := exc
  cases cp with
  | true => exact absurd h (by simp)
  | false =>
    cases i <;> cases sp <;>
      · simp only [test_channel, leakedProcess, spawnFailResult, if_true, if_false,
          Bool.true_eq_false, Bool.false_eq_true, and_false, false_and, if_neg,
          ite_true, ite_false, not_false_eq_true]
        try rfl
        try exact (afterMain_fields env success_keywords n u ext _ _ _).2.2.2

/-- C2, witness: the amended theorem applied to the silent never-exiting
session with the all-clear oracle. -/
theorem c2_witness : leakedProcess (test_channel envFail "n" "u" 4 2 2 noExc) = false :=
  c2_amended envFail "n" "u" 4 2 2 noExc rfl

/-- C6, counterexample.  The status print on source line 24 precedes the
`try` block, so an exception raised there propagates out of `test_channel`
instead of being caught and mapped to a Failure outcome; in the scheduler,
`future.result()` then re-raises it. -/
theorem c6_counterexample :
    test_channel envFail "n" "u" 4 2 2
        { atInitialPrint := true, atSpawn := false, atConnectingPrint := false }
      = Except.error () := by
  exact rfl

/-- C6, amended.  Every exception raised inside the `try` block — from the
spawn onward, including a spawn failure and the "Connecting..." print — is
caught at the session boundary and `test_channel` returns normally; a
spawn failure in particular returns the Failure outcome
`(name, url, False)`.  Only an exception in the status print that precedes
the `try` block escapes. -/
theorem c6_amended (env : Env) (n u : String) (tmo g ext : Nat) (exc : ExcOracle)
    (h : exc.atInitialPrint = false) :
    isOkE (test_channel env n u tmo g ext exc) = true ∧
    (exc.atSpawn = true → test_channel env n u tmo g ext exc = Except.ok (spawnFailResult n u)) := by
  obtain ⟨i, sp, cp⟩ := exc
  cases i with
  | true => exact absurd h (by simp)
  | false =>
    cases sp with
    | true => exact ⟨rfl, fun _ => rfl⟩
    | false =>
      refine ⟨?_, fun hsp => absurd hsp (by simp)⟩
      cases cp with
      | true =>
        simp only [test_channel, Bool.false_eq_true, if_false]
        split <;> rfl
      | false =>
        simp only [test_channel, Bool.false_eq_true, if_false, and_false, if_neg,
          not_false_eq_true]
        rfl

/-- C6, witness: the amended theorem applied to a session whose spawn
fails; the call returns the Failure outcome instead of raising. -/
theorem c6_witness :
    test_channel envFail "n" "u" 4 2 2
        { atInitialPrint := false, atSpawn := true, atConnectingPrint := false }
      = Except.ok (spawnFailResult "n" "u") :=
  (c6_amended envFail "n" "u" 4 2 2
    { atInitialPrint := false, atSpawn := true, atConnectingPrint := false } rfl).2 rfl

/-- C8, counterexample.  For the metadata line `#EXTINF:-1,A,B` (two
commas) the parser binds the display name `A,B` — the text after the FIRST
comma, because `re.search(r",(.+)", line)` matches at the leftmost comma
and the greedy group takes the rest of the line — and not `B`, the text
after the last comma that the claim prescribes. -/
theorem c8_counterexample :
    parse_m3u_lines ["#EXTINF:-1,A,B", "http://u"] = [("A,B", "http://u")] ∧
    parse_m3u_lines ["#EXTINF:-1,A,B", "http://u"] ≠ [("B", "http://u")] := by
  exact ⟨rfl, by decide⟩

/-- C9, theorem.  The two probing functions are not equivalent classifiers:
their success-keyword sets differ ("Opening" and "AVFormat" are success
signals only for `check_stream_status`), and on a stream whose only line
contains "Opening" — with each function's own default timing parameters —
`check_stream_status` returns `True` (Success) while `test_channel`
classifies the session Ambiguous and returns `False`. -/
theorem c9_theorem :
    success_keywords ≠ css_success_keywords ∧
    check_stream_status envOpening "n" "u" 200 100 100 = true ∧
    (test_channel_run envOpening "n" "u" 100 50 100).verdict = Outcome.Ambiguous ∧
    (test_channel_run envOpening "n" "u" 100 50 100).ret = false := by
  exact ⟨by decide, rfl, rfl, rfl⟩

/-- C3, counterexample.  A session with `grace_period = 10 ≤ timeout = 40`
(tenths of a unit) whose process exits on its own at instant 2: the main
polling loop exits early — at elapsed time 2, well before the timeout —
with `success_detected` still false, refuting "the main polling loop exits
early if and only if success_detected is true and elapsed ≥ grace_period". -/
theorem c3_counterexample :
    (10 : Nat) ≤ 40 ∧
    (mainPhase envSelfExit success_keywords connecting_keywords 40 10 41 0 false false).1 = 2 ∧
    (mainPhase envSelfExit success_keywords connecting_keywords 40 10 41 0 false false).1 < 40 ∧
    (mainPhase envSelfExit success_keywords connecting_keywords 40 10 41 0 false false).2.1 = false := by
  exact ⟨by decide, rfl, by decide, rfl⟩

/-- A line starting with `http` cannot start with `#EXTINF:`. -/
theorem not_extinf_of_http (l : List Char) (h : takesPre "http".data l = true) :
    takesPre "#EXTINF:".data l = false := by
  cases l with
  | nil => exact absurd h (by decide)
  | cons a t =>
    rw [show "http".data = 'h' :: "ttp".data from rfl] at h
    simp only [takesPre, Bool.and_eq_true] at h
    have ha : a = 'h' := (eq_of_beq h.1).symm
    subst ha
    rw [show "#EXTINF:".data = '#' :: "EXTINF:".data from rfl]
    simp only [takesPre]
    rw [show ('#' == 'h') = false from rfl, Bool.false_and]

/-- `dropWhile` does nothing when the head is not matched. -/
theorem dropWhile_of_headNot (l : List Char) (h : headNotSpace l = true) :
    l.dropWhile isSpace = l := by
  cases l with
  | nil => rfl
  | cons a t =>
    simp only [headNotSpace, Bool.not_eq_true'] at h
    simp [List.dropWhile_cons, h]

/-- `str.strip` leaves a list with no whitespace at either end unchanged. -/
theorem stripChars_of_shape (l : List Char) (h : strippedShape l = true) :
    stripChars l = l := by
  simp only [strippedShape, lastNotSpace, Bool.and_eq_true] at h
  unfold stripChars
  rw [dropWhile_of_headNot l h.1, dropWhile_of_headNot l.reverse h.2, List.reverse_reverse]

/-- `str.strip` leaves a string with no whitespace at either end unchanged. -/
theorem pyStrip_of_shape (s : String) (h : strippedShape s.data = true) :
    pyStrip s = s := by
  unfold pyStrip
  rw [stripChars_of_shape s.data h]

/-- The head of a nonempty list is the head of its append. -/
theorem headNotSpace_append (xs ys : List Char) (h : xs ≠ []) :
    headNotSpace (xs ++ ys) = headNotSpace xs := by
  cases xs with
  | nil => exact absurd rfl h
  | cons a t => rfl

/-- Appending a name with no trailing whitespace to a head-clean nonempty
prefix gives a line `str.strip` leaves unchanged. -/
theorem shape_append_of (p n : List Char) (hp : headNotSpace p = true) (hpne : p ≠ [])
    (hn : n ≠ []) (hlast : lastNotSpace n = true) :
    strippedShape (p ++ n) = true := by
  simp only [strippedShape, Bool.and_eq_true]
  refine ⟨by rw [headNotSpace_append p n hpne]; exact hp, ?_⟩
  unfold lastNotSpace at hlast ⊢
  rw [List.reverse_append, headNotSpace_append _ _ (by simpa using hn)]
  exact hlast

/-- The regular expression `,(.+)` captures everything after the first
comma of the line, when at least one character follows it. -/
theorem extinfName_append (xs ys : List Char) (hx : ∀ c ∈ xs, (c == ',') = false)
    (hy : ys ≠ []) : extinfName (xs ++ ',' :: ys) = some ys := by
  induction xs with
  | nil =>
    cases ys with
    | nil => exact absurd rfl hy
    | cons z zs => simp [extinfName]
  | cons a xs ih =>
    have ha : (a == ',') = false := hx a (List.mem_cons_self a xs)
    simp only [List.cons_append, extinfName, ha, Bool.false_eq_true, if_false]
    exact ih (fun c hc => hx c (List.mem_cons_of_mem a hc))

/-- Stepping `parse_m3u_lines` over a metadata line whose regex matches:
the current name is replaced by the stripped captured group. -/
theorem parseLoop_cons_extinf_some (l : String) (ls : List String) (cur : String)
    (g : List Char) (h1 : pyStartsWith (pyStrip l) "#EXTINF:" = true)
    (h2 : extinfName (pyStrip l).data = some g) :
    parseLoop (l :: ls) cur = parseLoop ls (pyStrip (String.mk g)) := by
  simp only [parseLoop, h1, if_true, h2]

/-- Stepping `parse_m3u_lines` over a metadata line whose regex does not
match (no comma followed by a character): the current name is kept. -/
theorem parseLoop_cons_extinf_none (l : String) (ls : List String) (cur : String)
    (h1 : pyStartsWith (pyStrip l) "#EXTINF:" = true)
    (h2 : extinfName (pyStrip l).data = none) :
    parseLoop (l :: ls) cur = parseLoop ls cur := by
  simp only [parseLoop, h1, if_true, h2]

/-- Stepping `parse_m3u_lines` over a URL line binds it to the current
name. -/
theorem parseLoop_cons_url (l : String) (ls : List String) (cur : String)
    (h1 : pyStartsWith (pyStrip l) "#EXTINF:" = false)
    (h2 : pyStartsWith (pyStrip l) "http" = true) :
    parseLoop (l :: ls) cur = (cur, pyStrip l) :: parseLoop ls cur := by
  simp only [parseLoop, h1, h2, Bool.false_eq_true, if_false, if_true]

/-- Stepping `parse_m3u_lines` over a well-formed URL line. -/
theorem parseLoop_cons_validUrl (u : String) (ls : List String) (cur : String)
    (h : validUrl u) :
    parseLoop (u :: ls) cur = (cur, u) :: parseLoop ls cur := by
  have hs : pyStrip u = u := pyStrip_of_shape u h.2
  have h1 : pyStartsWith (pyStrip u) "#EXTINF:" = false := by
    rw [hs]; exact not_extinf_of_http u.data h.1
  have h2 : pyStartsWith (pyStrip u) "http" = true := by
    rw [hs]; exact h.1
  rw [parseLoop_cons_url u ls cur h1 h2, hs]

/-- A block of well-formed URL lines all bind to the current name, in
order. -/
theorem parseLoop_urls (us ls : List String) (cur : String)
    (h : ∀ u ∈ us, validUrl u) :
    parseLoop (us ++ ls) cur = us.map (fun u => (cur, u)) ++ parseLoop ls cur := by
  induction us with
  | nil => simp
  | cons u us ih =>
    rw [List.cons_append, parseLoop_cons_validUrl u _ cur (h u (by simp)),
      ih (fun v hv => h v (by simp [hv]))]
    simp

/-- Stepping `parse_m3u_lines` over a rendered `#EXTINF:-1,name` line sets
the current name to `name`. -/
theorem parseLoop_cons_meta (n : String) (ls : List String) (cur : String)
    (hn : validName n) :
    parseLoop (("#EXTINF:-1," ++ n) :: ls) cur = parseLoop ls n := by
  have hl : lastNotSpace n.data = true := by
    have h2 := hn.2
    simp only [strippedShape, Bool.and_eq_true] at h2
    exact h2.2
  have hshape : strippedShape ("#EXTINF:-1," ++ n).data = true := by
    have := shape_append_of "#EXTINF:-1,".data n.data (by decide) (by decide) hn.1 hl
    simpa only [String.data_append] using this
  have hs : pyStrip ("#EXTINF:-1," ++ n) = "#EXTINF:-1," ++ n :=
    pyStrip_of_shape _ hshape
  have h1 : pyStartsWith (pyStrip ("#EXTINF:-1," ++ n)) "#EXTINF:" = true := by
    rw [hs]
    show takesPre "#EXTINF:".data ("#EXTINF:-1," ++ n).data = true
    rw [String.data_append]
    rfl
  have h2 : extinfName (pyStrip ("#EXTINF:-1," ++ n)).data = some n.data := by
    rw [hs]
    show extinfName ("#EXTINF:-1," ++ n).data = some n.data
    rw [String.data_append]
    exact extinfName_append "#EXTINF:-1".data n.data (by decide) (by
      intro hfalse
      exact hn.1 hfalse)
  rw [parseLoop_cons_extinf_some _ ls cur n.data h1 h2]
  show parseLoop ls (pyStrip n) = parseLoop ls n
  rw [pyStrip_of_shape n hn.2]

/-- Rendered pairs parse back to themselves, whatever the incoming current
name. -/
theorem parseLoop_render (ps : List (String × String)) (cur : String)
    (h : ∀ p ∈ ps, validName p.1 ∧ validUrl p.2) :
    parseLoop (renderPairs ps) cur = ps := by
  induction ps generalizing cur with
  | nil => rfl
  | cons p ps ih =>
    obtain ⟨n, u⟩ := p
    have hp := h (n, u) (by simp)
    rw [show renderPairs ((n, u) :: ps) = ("#EXTINF:-1," ++ n) :: u :: renderPairs ps from rfl,
      parseLoop_cons_meta n _ cur hp.1, parseLoop_cons_validUrl u _ n hp.2,
      ih n (fun q hq => h q (by simp [hq]))]

/-- C7, theorem.  A playlist made of any block of well-formed URL lines
with no preceding metadata, followed by N `#EXTINF`/URL pairs, parses to
exactly one entry per URL line, in file order: the leading URLs get the
name "Unknown" and each pair's URL gets the name of its preceding metadata
line. -/
theorem c7_theorem (us : List String) (ps : List (String × String))
    (hu : ∀ u ∈ us, validUrl u) (hp : ∀ p ∈ ps, validName p.1 ∧ validUrl p.2) :
    parse_m3u_lines (us ++ renderPairs ps)
      = us.map (fun u => ("Unknown", u)) ++ ps := by
  unfold parse_m3u_lines
  rw [parseLoop_urls us _ _ hu, parseLoop_render ps _ hp]

/-- C7, witness: one URL without metadata and two rendered pairs. -/
theorem c7_witness :
    parse_m3u_lines (["http://pre"] ++ renderPairs [("A", "http://one"), ("B", "http://two")])
      = [("Unknown", "http://pre"), ("A", "http://one"), ("B", "http://two")] := by
  have h := c7_theorem ["http://pre"] [("A", "http://one"), ("B", "http://two")]
    (by decide) (by decide)
  simpa using h

/-- Every list is a prefix of itself extended by anything. -/
theorem takesPre_append_self (p rest : List Char) : takesPre p (p ++ rest) = true := by
  induction p with
  | nil => rfl
  | cons a p ih =>
    simp only [List.cons_append, takesPre, Bool.and_eq_true]
    exact ⟨by simp, ih⟩

/-- C8, amended.  For a metadata line `#EXTINF:<attrs>,<name>` in which
`<attrs>` contains no comma and at least one character follows the first
comma, the display name bound to the following URL line is the text after
the FIRST comma of the line (stripped) — not the last; when several commas
occur, everything after the first one (commas included) is the name. -/
theorem c8_amended (a b u cur : String)
    (ha : ∀ c ∈ a.data, (c == ',') = false)
    (hb : validName b) (hu : validUrl u) :
    parseLoop [("#EXTINF:" ++ a ++ "," ++ b), u] cur = [(b, u)] := by
  have hl : lastNotSpace b.data = true := by
    have h2 := hb.2
    simp only [strippedShape, Bool.and_eq_true] at h2
    exact h2.2
  have hdata : ("#EXTINF:" ++ a ++ "," ++ b).data
      = ("#EXTINF:".data ++ a.data ++ [',']) ++ b.data := by
    simp [String.data_append]
  have hpne : "#EXTINF:".data ++ a.data ++ [','] ≠ [] := by
    simp
  have hhead : headNotSpace ("#EXTINF:".data ++ a.data ++ [',']) = true := by
    rw [List.append_assoc, headNotSpace_append _ _ (by decide)]
    decide
  have hshape : strippedShape ("#EXTINF:" ++ a ++ "," ++ b).data = true := by
    rw [hdata]
    exact shape_append_of _ _ hhead hpne hb.1 hl
  have hs : pyStrip ("#EXTINF:" ++ a ++ "," ++ b) = "#EXTINF:" ++ a ++ "," ++ b :=
    pyStrip_of_shape _ hshape
  have h1 : pyStartsWith (pyStrip ("#EXTINF:" ++ a ++ "," ++ b)) "#EXTINF:" = true := by
    rw [hs]
    show takesPre "#EXTINF:".data ("#EXTINF:" ++ a ++ "," ++ b).data = true
    rw [hdata, List.append_assoc, List.append_assoc]
    exact takesPre_append_self "#EXTINF:".data _
  have h2 : extinfName (pyStrip ("#EXTINF:" ++ a ++ "," ++ b)).data = some b.data := by
    rw [hs, hdata, List.append_assoc, List.append_assoc,
      show [','] ++ b.data = ',' :: b.data from rfl, ← List.append_assoc]
    exact extinfName_append ("#EXTINF:".data ++ a.data) b.data
      (by
        intro c hc
        rcases List.mem_append.mp hc with h | h
        · exact (by decide : ∀ c ∈ "#EXTINF:".data, (c == ',') = false) c h
        · exact ha c h)
      hb.1
  rw [parseLoop_cons_extinf_some _ _ cur b.data h1 h2]
  show parseLoop [u] (pyStrip b) = [(b, u)]
  rw [pyStrip_of_shape b hb.2, parseLoop_cons_validUrl u [] b hu]
  rfl

/-- C8, witness: the amended first-comma rule at a line with two commas;
the name keeps the second comma. -/
theorem c8_witness :
    parseLoop ["#EXTINF:0,Grp,Name", "http://u"] "Unknown" = [("Grp,Name", "http://u")] := by
  exact c8_amended "0" "Grp,Name" "http://u" "Unknown" (by decide) (by decide) (by decide)

/-- C10, theorem.  In `parse_m3u_lines`, an `#EXTINF:` line in which no
comma is followed by a character leaves the current name unchanged (it is
not reset to "Unknown"), and the current name is never cleared after being
used: every block of well-formed URL lines — including several consecutive
URL lines after a single metadata line — inherits the current (most
recently parsed) name. -/
theorem c10_theorem :
    (∀ (cur l : String) (ls : List String),
        pyStartsWith (pyStrip l) "#EXTINF:" = true →
        extinfName (pyStrip l).data = none →
        parseLoop (l :: ls) cur = parseLoop ls cur) ∧
    (∀ (cur : String) (us ls : List String), (∀ u ∈ us, validUrl u) →
        parseLoop (us ++ ls) cur = us.map (fun u => (cur, u)) ++ parseLoop ls cur) := by
  constructor
  · intro cur l ls h1 h2
    exact parseLoop_cons_extinf_none l ls cur h1 h2
  · intro cur us ls h
    exact parseLoop_urls us ls cur h

/-- C10, witness: a comma-less metadata line is skipped without resetting
the name, and the two following URL lines both inherit the name that was
current before it. -/
theorem c10_witness :
    parseLoop ["#EXTINF:nocomma", "http://a", "http://b"] "KeptName"
      = [("KeptName", "http://a"), ("KeptName", "http://b")] := by
  have h1 := c10_theorem.1 "KeptName" "#EXTINF:nocomma" ["http://a", "http://b"]
    (by decide) (by decide)
  have h2 := c10_theorem.2 "KeptName" ["http://a", "http://b"] [] (by decide)
  simp only [List.append_nil] at h2
  rw [h1, h2]
  rfl

/-- The main polling loop never goes back in time. -/
theorem mainPhase_t_le (env : Env) (sk ck : List String) (tmo g : Nat) :
    ∀ (fuel t : Nat) (s c : Bool), t ≤ (mainPhase env sk ck tmo g fuel t s c).1 := by
  intro fuel
  induction fuel with
  | zero => intro t s c; exact Nat.le_refl t
  | succ fuel ih =>
    intro t s c
    simp only [mainPhase]
    split
    · exact Nat.le_refl t
    · split
      · exact Nat.le_refl t
      · split
        · exact Nat.le_refl t
        · exact Nat.le_trans (Nat.le_add_right t 2) (ih (t + 2) _ _)

/-- Once `success_detected` is set it stays set for the rest of the main
phase (the flags are monotone). -/
theorem mainPhase_s_mono (env : Env) (sk ck : List String) (tmo g : Nat) :
    ∀ (fuel t : Nat) (c : Bool), (mainPhase env sk ck tmo g fuel t true c).2.1 = true := by
  intro fuel
  induction fuel with
  | zero => intro t c; rfl
  | succ fuel ih =>
    intro t c
    simp only [mainPhase, Bool.true_or]
    split
    · rfl
    · split
      · rfl
      · split
        · rfl
        · exact ih (t + 2) _

/-- Once `connection_detected` is set it stays set for the rest of the
main phase. -/
theorem mainPhase_c_mono (env : Env) (sk ck : List String) (tmo g : Nat) :
    ∀ (fuel t : Nat) (s : Bool), (mainPhase env sk ck tmo g fuel t s true).2.2 = true := by
  intro fuel
  induction fuel with
  | zero => intro t s; rfl
  | succ fuel ih =>
    intro t s
    simp only [mainPhase, Bool.true_or]
    split
    · rfl
    · split
      · rfl
      · split
        · rfl
        · exact ih (t + 2) _

/-- Level-triggered detection: if a success keyword is visible among the
accumulated lines at a polling tick `t` that the loop reaches (no process
exit at or before `t`, `t` on the 0.2-unit grid, `t` before the timeout),
then the loop's final `success_detected` flag is set — whether the loop
breaks at or after `t` or runs to the timeout. -/
theorem mainPhase_scan_s (env : Env) (sk ck : List String) (tmo g t : Nat)
    (hlt : t < tmo) (hsc : scanAny sk (env.lines t) = true) :
    ∀ (fuel t0 : Nat) (s c : Bool), t0 ≤ t → (t - t0) % 2 = 0 → t < t0 + 2 * fuel →
      (∀ v, t0 ≤ v → v ≤ t → env.exited v = false) →
      (mainPhase env sk ck tmo g fuel t0 s c).2.1 = true := by
  intro fuel
  induction fuel with
  | zero => intro t0 s c h1 h2 h3 h4; omega
  | succ fuel ih =>
    intro t0 s c h1 h2 h3 h4
    simp only [mainPhase]
    rw [if_neg (by omega : ¬ tmo ≤ t0), h4 t0 (Nat.le_refl t0) h1]
    simp only [Bool.false_eq_true, if_false]
    rcases Nat.eq_or_lt_of_le h1 with heq | hlt0
    · subst heq
      rw [hsc, Bool.or_true]
      split
      · rfl
      · exact mainPhase_s_mono env sk ck tmo g fuel (t0 + 2) _
    · split
      · next hcond => exact hcond.1
      · exact ih (t0 + 2) _ _ (by omega) (by omega) (by omega)
          (fun v hv1 hv2 => h4 v (by omega) hv2)

/-- Level-triggered detection for the connection flag: if a connecting
keyword is visible at a reached polling tick `t` and no success keyword is
visible at any tick up to `t` (so the loop cannot break before scanning
`t`), the loop's final `connection_detected` flag is set. -/
theorem mainPhase_scan_c (env : Env) (sk ck : List String) (tmo g t : Nat)
    (hlt : t < tmo) (hcc : scanAny ck (env.lines t) = true) :
    ∀ (fuel t0 : Nat) (c : Bool), t0 ≤ t → (t - t0) % 2 = 0 → t < t0 + 2 * fuel →
      (∀ v, t0 ≤ v → v ≤ t → env.exited v = false) →
      (∀ v, t0 ≤ v → v ≤ t → scanAny sk (env.lines v) = false) →
      (mainPhase env sk ck tmo g fuel t0 false c).2.2 = true := by
  intro fuel
  induction fuel with
  | zero => intro t0 c h1 h2 h3 h4 h5; omega
  | succ fuel ih =>
    intro t0 c h1 h2 h3 h4 h5
    simp only [mainPhase]
    rw [if_neg (by omega : ¬ tmo ≤ t0), h4 t0 (Nat.le_refl t0) h1,
      h5 t0 (Nat.le_refl t0) h1]
    simp only [Bool.false_eq_true, Bool.or_false, false_and, if_false]
    rcases Nat.eq_or_lt_of_le h1 with heq | hlt0
    · subst heq
      rw [hcc, Bool.or_true]
      exact mainPhase_c_mono env sk ck tmo g fuel (t0 + 2) _
    · exact ih (t0 + 2) _ (by omega) (by omega) (by omega)
        (fun v hv1 hv2 => h4 v (by omega) hv2)
        (fun v hv1 hv2 => h5 v (by omega) hv2)

/-- When the process never exits and no success keyword ever appears, the
main polling loop runs to the timeout: it stops at the first grid point at
or past `tmo` (so within one tick of `tmo`) with the success flag still
clear. -/
theorem mainPhase_natural (env : Env) (sk ck : List String) (tmo g : Nat)
    (hex : ∀ v, env.exited v = false) (hnos : ∀ v, scanAny sk (env.lines v) = false) :
    ∀ (fuel t0 : Nat) (c : Bool), tmo ≤ t0 + 2 * fuel → t0 < tmo + 2 →
      tmo ≤ (mainPhase env sk ck tmo g fuel t0 false c).1 ∧
      (mainPhase env sk ck tmo g fuel t0 false c).1 < tmo + 2 ∧
      ((mainPhase env sk ck tmo g fuel t0 false c).1 - t0) % 2 = 0 ∧
      (mainPhase env sk ck tmo g fuel t0 false c).2.1 = false := by
  intro fuel
  induction fuel with
  | zero =>
    intro t0 c h1 h2
    refine ⟨?_, ?_, ?_, ?_⟩
    · show tmo ≤ t0
      omega
    · show t0 < tmo + 2
      exact h2
    · show (t0 - t0) % 2 = 0
      omega
    · rfl
  | succ fuel ih =>
    intro t0 c h1 h2
    simp only [mainPhase]
    split
    · next hc => exact ⟨hc, h2, by omega, rfl⟩
    · rw [hex t0]
      simp only [Bool.false_eq_true, if_false, hnos t0, Bool.or_false, false_and]
      have hrec := ih (t0 + 2) (c || scanAny ck (env.lines t0)) (by omega) (by
        rcases Nat.lt_or_ge t0 tmo with h | h
        · omega
        · omega)
      have hle := mainPhase_t_le env sk ck tmo g fuel (t0 + 2)
        false (c || scanAny ck (env.lines t0))
      next hc =>
        refine ⟨hrec.1, hrec.2.1, by omega, hrec.2.2.2⟩

/-- The extended-phase loop never goes back in time. -/
theorem extPhase_e_le (env : Env) (sk : List String) (ext : Nat) :
    ∀ (fuel base e : Nat) (s : Bool), e ≤ (extPhase env sk ext fuel base e s).1 := by
  intro fuel
  induction fuel with
  | zero => intro base e s; exact Nat.le_refl e
  | succ fuel ih =>
    intro base e s
    simp only [extPhase]
    split
    · exact Nat.le_refl e
    · split
      · exact Nat.le_refl e
      · split
        · exact Nat.le_refl e
        · exact Nat.le_trans (Nat.le_add_right e 2) (ih base (e + 2) _)

/-- When the process never exits and no success keyword ever appears, the
extended phase runs its full bonus window: it stops at the first grid
point at or past `ext` with the success flag still clear. -/
theorem extPhase_natural (env : Env) (sk : List String) (ext base : Nat)
    (hex : ∀ v, env.exited v = false) (hnos : ∀ v, scanAny sk (env.lines v) = false) :
    ∀ (fuel e : Nat), ext ≤ e + 2 * fuel → e < ext + 2 →
      ext ≤ (extPhase env sk ext fuel base e false).1 ∧
      (extPhase env sk ext fuel base e false).1 < ext + 2 ∧
      ((extPhase env sk ext fuel base e false).1 - e) % 2 = 0 ∧
      (extPhase env sk ext fuel base e false).2 = false := by
  intro fuel
  induction fuel with
  | zero =>
    intro e h1 h2
    refine ⟨?_, ?_, ?_, ?_⟩
    · show ext ≤ e
      omega
    · show e < ext + 2
      exact h2
    · show (e - e) % 2 = 0
      omega
    · rfl
  | succ fuel ih =>
    intro e h1 h2
    simp only [extPhase]
    split
    · next hc => exact ⟨hc, h2, by omega, rfl⟩
    · rw [hex (base + e)]
      simp only [Bool.false_eq_true, if_false, hnos (base + e), Bool.or_false]
      have hrec := ih (e + 2) (by omega) (by omega)
      have hle := extPhase_e_le env sk ext fuel base (e + 2) false
      refine ⟨hrec.1, hrec.2.1, by omega, hrec.2.2.2⟩

/-- C4, counterexample.  A process that emits a success line at instant 1
and exits on its own at instant 2: the first polling tick (t = 0) scans an
empty line list, the second tick (t = 2) sees `poll()` non-None and breaks
BEFORE rescanning, so the success keyword sitting in the accumulated lines
is never seen; the verdict is Failure although the diagnostic stream
contains a success keyword that was never followed by newer lines. -/
theorem c4_counterexample :
    scanAny success_keywords (envLateSucc.lines 1) = true ∧
    (test_channel_run envLateSucc "n" "u" 40 10 20).sFlag = false ∧
    (test_channel_run envLateSucc "n" "u" 40 10 20).verdict = Outcome.Failure := by
  exact ⟨rfl, rfl, rfl⟩

/-- C4, amended.  The per-tick rescan is level-triggered over the polling
ticks the loop actually reaches: if a success (resp. connecting) keyword
is visible among the accumulated lines at a grid tick `t` before the
timeout and the process has not exited at or before `t`, then
`success_detected` is true at the verdict and the session resolves Success
(resp. `connection_detected` is true at the verdict, provided no success
keyword was visible up to `t`).  A keyword that becomes visible only after
the last scan — e.g. emitted immediately before a process exit — can be
missed, as the counterexample shows. -/
theorem c4_amended (env : Env) (n u : String) (tmo g ext t : Nat)
    (ht : t % 2 = 0) (hlt : t < tmo)
    (hex : ∀ v, v ≤ t → env.exited v = false) :
    (scanAny success_keywords (env.lines t) = true →
      (test_channel_run env n u tmo g ext).sFlag = true ∧
      (test_channel_run env n u tmo g ext).verdict = Outcome.Success) ∧
    ((∀ v, v ≤ t → scanAny success_keywords (env.lines v) = false) →
      scanAny connecting_keywords (env.lines t) = true →
      (test_channel_run env n u tmo g ext).cFlag = true) := by
  constructor
  · intro hsc
    have hs1 : (mainPhase env success_keywords connecting_keywords tmo g
        (tmo + 1) 0 false false).2.1 = true :=
      mainPhase_scan_s env success_keywords connecting_keywords tmo g t hlt hsc
        (tmo + 1) 0 false false (Nat.zero_le t) (by omega) (by omega)
        (fun v _ hv2 => hex v hv2)
    constructor
    · show (afterMain env success_keywords n u ext
        (mainPhase env success_keywords connecting_keywords tmo g (tmo + 1) 0 false false).1
        (mainPhase env success_keywords connecting_keywords tmo g (tmo + 1) 0 false false).2.1
        (mainPhase env success_keywords connecting_keywords tmo g (tmo + 1) 0 false false).2.2).sFlag
          = true
      rw [hs1, afterMain_of_sTrue]
      rfl
    · show (afterMain env success_keywords n u ext
        (mainPhase env success_keywords connecting_keywords tmo g (tmo + 1) 0 false false).1
        (mainPhase env success_keywords connecting_keywords tmo g (tmo + 1) 0 false false).2.1
        (mainPhase env success_keywords connecting_keywords tmo g (tmo + 1) 0 false false).2.2).verdict
          = Outcome.Success
      rw [hs1, afterMain_of_sTrue]
      rfl
  · intro hnos hcc
    have hc1 : (mainPhase env success_keywords connecting_keywords tmo g
        (tmo + 1) 0 false false).2.2 = true :=
      mainPhase_scan_c env success_keywords connecting_keywords tmo g t hlt hcc
        (tmo + 1) 0 false (Nat.zero_le t) (by omega) (by omega)
        (fun v _ hv2 => hex v hv2) (fun v _ hv2 => hnos v hv2)
    show (afterMain env success_keywords n u ext
      (mainPhase env success_keywords connecting_keywords tmo g (tmo + 1) 0 false false).1
      (mainPhase env success_keywords connecting_keywords tmo g (tmo + 1) 0 false false).2.1
      (mainPhase env success_keywords connecting_keywords tmo g (tmo + 1) 0 false false).2.2).cFlag
        = true
    exact Eq.trans (afterMain_fields env success_keywords n u ext _ _ _).2.2.1 hc1

/-- C4, witness: the amended theorem at the session whose success keyword
is visible from instant 3, taken at the reached tick t = 4. -/
theorem c4_witness :
    (test_channel_run envGrace "n" "u" 40 10 20).sFlag = true ∧
    (test_channel_run envGrace "n" "u" 40 10 20).verdict = Outcome.Success :=
  (c4_amended envGrace "n" "u" 40 10 20 4 rfl (by decide) (fun v _ => rfl)).1 rfl

/-- C5, counterexample.  A session whose stream contains a connecting
keyword (visible from instant 39) but never a success keyword and whose
process never exits: because the keyword becomes visible only after the
last main-phase scan (ticks 0, 2, ..., 38 for a 40-decis timeout),
`connection_detected` stays false, the extended phase is NOT entered and
the session resolves Failure at elapsed 40 — not Ambiguous at
timeout + extended_check = 60. -/
theorem c5_counterexample :
    scanAny connecting_keywords (envLateConn.lines 39) = true ∧
    (test_channel_run envLateConn "n" "u" 40 10 20).verdict = Outcome.Failure ∧
    (test_channel_run envLateConn "n" "u" 40 10 20).tEnd = 40 := by
  exact ⟨rfl, rfl, rfl⟩

/-- C5, amended.  For a session whose process never exits on its own,
whose stream never shows a success keyword, and whose connecting keyword
is visible at some polling tick before the timeout (the proviso the
counterexample forces), with tick-aligned `timeout` and `extended_check`:
the extended phase is entered, the session resolves Ambiguous at exactly
`timeout + extended_check` elapsed, and the process is terminated
(not alive at return). -/
theorem c5_amended (env : Env) (n u : String) (tmo g ext : Nat)
    (htmo : tmo % 2 = 0) (hext : ext % 2 = 0)
    (hex : ∀ v, env.exited v = false)
    (hnos : ∀ v, scanAny success_keywords (env.lines v) = false)
    (t : Nat) (ht : t % 2 = 0) (hlt : t < tmo)
    (hconn : scanAny connecting_keywords (env.lines t) = true) :
    (test_channel_run env n u tmo g ext).verdict = Outcome.Ambiguous ∧
    (test_channel_run env n u tmo g ext).sFlag = false ∧
    (test_channel_run env n u tmo g ext).cFlag = true ∧
    (test_channel_run env n u tmo g ext).tEnd = tmo + ext ∧
    (test_channel_run env n u tmo g ext).alive = false := by
  have hM := mainPhase_natural env success_keywords connecting_keywords tmo g hex hnos
    (tmo + 1) 0 false (by omega) (by omega)
  obtain ⟨hM1, hM2, hM3, hMs⟩ := hM
  have hM1eq : (mainPhase env success_keywords connecting_keywords tmo g
      (tmo + 1) 0 false false).1 = tmo := by omega
  have hMc : (mainPhase env success_keywords connecting_keywords tmo g
      (tmo + 1) 0 false false).2.2 = true :=
    mainPhase_scan_c env success_keywords connecting_keywords tmo g t hlt hconn
      (tmo + 1) 0 false (Nat.zero_le t) (by omega) (by omega)
      (fun v _ _ => hex v) (fun v _ _ => hnos v)
  have hE := extPhase_natural env success_keywords ext tmo hex hnos
    (ext + 1) 0 (by omega) (by omega)
  obtain ⟨hE1, hE2, hE3, hEs⟩ := hE
  have hE1eq : (extPhase env success_keywords ext (ext + 1) tmo 0 false).1 = ext := by omega
  have hrun : test_channel_run env n u tmo g ext = finishRun n u (tmo + ext) false true := by
    show afterMain env success_keywords n u ext
      (mainPhase env success_keywords connecting_keywords tmo g (tmo + 1) 0 false false).1
      (mainPhase env success_keywords connecting_keywords tmo g (tmo + 1) 0 false false).2.1
      (mainPhase env success_keywords connecting_keywords tmo g (tmo + 1) 0 false false).2.2
        = finishRun n u (tmo + ext) false true
    rw [hM1eq, hMs, hMc]
    unfold afterMain
    rw [if_pos ⟨rfl, rfl⟩]
    show finishRun n u (tmo + (extPhase env success_keywords ext (ext + 1) tmo 0 false).1)
      (extPhase env success_keywords ext (ext + 1) tmo 0 false).2 true
        = finishRun n u (tmo + ext) false true
    rw [hE1eq, hEs]
  rw [hrun]
  exact ⟨rfl, rfl, rfl, rfl, rfl⟩

/-- C5, witness: the amended theorem at the connecting-from-the-start
session with timeout 40, grace 10, extended check 20 (tenths of a
time-unit): Ambiguous at exactly 60. -/
theorem c5_witness :
    (test_channel_run envConn "n" "u" 40 10 20).verdict = Outcome.Ambiguous ∧
    (test_channel_run envConn "n" "u" 40 10 20).tEnd = 40 + 20 ∧
    (test_channel_run envConn "n" "u" 40 10 20).alive = false := by
  have h := c5_amended envConn "n" "u" 40 10 20 rfl rfl (fun v => rfl) (fun v => rfl)
    0 rfl (by decide) rfl
  exact ⟨h.1, h.2.2.2.1, h.2.2.2.2⟩

/-- Keyword visibility is preserved by growing (append-only) line lists. -/
theorem scanAny_mono (kws : List String) (env : Env)
    (hmono : ∀ v w, v ≤ w → ∀ l ∈ env.lines v, l ∈ env.lines w)
    (v w : Nat) (hvw : v ≤ w) (h : scanAny kws (env.lines v) = true) :
    scanAny kws (env.lines w) = true := by
  simp only [scanAny, List.any_eq_true] at h ⊢
  rcases h with ⟨l, hl, hk⟩
  exact ⟨l, hmono v w hvw l hl, hk⟩

/-- If the process never exits on its own and the main polling loop stops
before the timeout, then it stopped at the success break: the grace period
had elapsed and the success flag was set — by the incoming flag or by a
scan at some reached grid tick. -/
theorem mainPhase_early_exit (env : Env) (sk ck : List String) (tmo g : Nat)
    (hex : ∀ v, env.exited v = false) :
    ∀ (fuel t0 : Nat) (s c : Bool), tmo ≤ t0 + 2 * fuel →
      (mainPhase env sk ck tmo g fuel t0 s c).1 < tmo →
      g ≤ (mainPhase env sk ck tmo g fuel t0 s c).1 ∧
      ((mainPhase env sk ck tmo g fuel t0 s c).1 - t0) % 2 = 0 ∧
      (s = true ∨ ∃ v, t0 ≤ v ∧ v ≤ (mainPhase env sk ck tmo g fuel t0 s c).1 ∧
        (v - t0) % 2 = 0 ∧ scanAny sk (env.lines v) = true) := by
  intro fuel
  induction fuel with
  | zero =>
    intro t0 s c h1 h2
    have : (mainPhase env sk ck tmo g 0 t0 s c).1 = t0 := rfl
    omega
  | succ fuel ih =>
    intro t0 s c h1 h2
    rcases Nat.lt_or_ge t0 tmo with htlt | htge
    · rw [mainPhase, if_neg (by omega : ¬ tmo ≤ t0), hex t0] at h2 ⊢
      simp only [Bool.false_eq_true, if_false] at h2 ⊢
      by_cases hbr : (s || scanAny sk (env.lines t0)) = true ∧ g ≤ t0
      · rw [if_pos hbr] at h2 ⊢
        refine ⟨hbr.2, by omega, ?_⟩
        rcases Bool.or_eq_true_iff.mp hbr.1 with hs | hsc
        · exact Or.inl hs
        · exact Or.inr ⟨t0, Nat.le_refl t0, Nat.le_refl t0, by omega, hsc⟩
      · rw [if_neg hbr] at h2 ⊢
        have hrec := ih (t0 + 2) (s || scanAny sk (env.lines t0))
          (c || scanAny ck (env.lines t0)) (by omega) h2
        have hle := mainPhase_t_le env sk ck tmo g fuel (t0 + 2)
          (s || scanAny sk (env.lines t0)) (c || scanAny ck (env.lines t0))
        refine ⟨hrec.1, by omega, ?_⟩
        rcases hrec.2.2 with hs2 | ⟨v, hv1, hv2, hv3, hv4⟩
        · rcases Bool.or_eq_true_iff.mp hs2 with hs | hsc
          · exact Or.inl hs
          · exact Or.inr ⟨t0, Nat.le_refl t0, by omega, by omega, hsc⟩
        · exact Or.inr ⟨v, by omega, hv2, by omega, hv4⟩
    · rw [mainPhase, if_pos (by omega : tmo ≤ t0)] at h2
      have : t0 < tmo := h2
      omega

/-- If a success keyword is visible at a reached grid tick `t` with
`grace ≤ t < timeout` and the process has not exited by `t`, the main
polling loop breaks before the timeout. -/
theorem mainPhase_break_early (env : Env) (sk ck : List String) (tmo g t : Nat)
    (hlt : t < tmo) (hg : g ≤ t) (hsc : scanAny sk (env.lines t) = true) :
    ∀ (fuel t0 : Nat) (s c : Bool), t0 ≤ t → (t - t0) % 2 = 0 → t < t0 + 2 * fuel →
      (∀ v, t0 ≤ v → v ≤ t → env.exited v = false) →
      (mainPhase env sk ck tmo g fuel t0 s c).1 < tmo := by
  intro fuel
  induction fuel with
  | zero => intro t0 s c h1 h2 h3 h4; omega
  | succ fuel ih =>
    intro t0 s c h1 h2 h3 h4
    rw [mainPhase, if_neg (by omega : ¬ tmo ≤ t0), h4 t0 (Nat.le_refl t0) h1]
    simp only [Bool.false_eq_true, if_false]
    by_cases hbr : (s || scanAny sk (env.lines t0)) = true ∧ g ≤ t0
    · rw [if_pos hbr]
      show t0 < tmo
      omega
    · rw [if_neg hbr]
      rcases Nat.eq_or_lt_of_le h1 with heq | hlt0
      · subst heq
        exact absurd ⟨by rw [hsc, Bool.or_true], hg⟩ hbr
      · exact ih (t0 + 2) _ _ (by omega) (by omega) (by omega)
          (fun v hv1 hv2 => h4 v (by omega) hv2)

/-- C3, amended, with the scenario.  For every session with
`grace_period ≤ timeout` whose process never exits on its own (the proviso
the counterexample forces: a self-exit also ends the main loop early) and
whose line list is append-only, the main polling loop exits early
(before the timeout) if and only if a success keyword is visible at some
polling grid tick `t` with `grace_period ≤ t < timeout`.  In particular,
for the stream showing a success keyword from t = 0.3 time-units with
grace 1 and timeout 4 (tenths: 3, 10, 40): the loop exits exactly at
elapsed 10 — not before the grace floor, and at the first 0.2-unit tick at
or after it — with verdict Success. -/
theorem c3_amended :
    (∀ (env : Env) (tmo g : Nat), g ≤ tmo →
      (∀ v, env.exited v = false) →
      (∀ v w, v ≤ w → ∀ l ∈ env.lines v, l ∈ env.lines w) →
      ((mainPhase env success_keywords connecting_keywords tmo g (tmo + 1) 0 false false).1 < tmo
        ↔ ∃ t, t % 2 = 0 ∧ t < tmo ∧ g ≤ t ∧
            scanAny success_keywords (env.lines t) = true)) ∧
    mainPhase envGrace success_keywords connecting_keywords 40 10 41 0 false false
      = (10, true, false) ∧
    (test_channel_run envGrace "n" "u" 40 10 20).verdict = Outcome.Success ∧
    (test_channel_run envGrace "n" "u" 40 10 20).tEnd = 10 := by
  refine ⟨?_, rfl, rfl, rfl⟩
  intro env tmo g hg hex hmono
  constructor
  · intro h
    have he := mainPhase_early_exit env success_keywords connecting_keywords tmo g hex
      (tmo + 1) 0 false false (by omega) h
    rcases he.2.2 with hs | ⟨v, hv1, hv2, hv3, hv4⟩
    · exact absurd hs (by simp)
    · refine ⟨(mainPhase env success_keywords connecting_keywords tmo g
        (tmo + 1) 0 false false).1, ?_, h, he.1, ?_⟩
      · have := he.2.1
        omega
      · exact scanAny_mono success_keywords env hmono v _ hv2 hv4
  · rintro ⟨t, ht, hlt, hgt, hsc⟩
    exact mainPhase_break_early env success_keywords connecting_keywords tmo g t hlt hgt hsc
      (tmo + 1) 0 false false (Nat.zero_le t) (by omega) (by omega) (fun v _ _ => hex v)

/-- C3, witness: the amended iff applied, right to left, to the scenario
session: a success keyword visible at tick 10 with grace 10 and timeout 40
makes the loop exit early. -/
theorem c3_witness :
    (mainPhase envGrace success_keywords connecting_keywords 40 10 41 0 false false).1 < 40 := by
  refine (c3_amended.1 envGrace 40 10 (by decide) (fun v => rfl) ?_).mpr
    ⟨10, rfl, by decide, by decide, rfl⟩
  intro v w hvw l hl
  simp only [envGrace] at hl ⊢
  split at hl
  · next h3 => rw [if_pos (by omega : 3 ≤ w)]; exact hl
  · exact absurd hl (by simp)
